import Mathlib

/-!
# Verification development for the Complex Number Guessing Game

This file gives a shallow embedding of the round state machine of the
repository (the tkinter game in `Complex counting game!.py` and the console
variant `app.py`) and proves the testable properties of its specification.

Modelling conventions:
* Wall-clock instants (`time.time()` values) are rationals (`ℚ`); Python
  `int(x)` (truncation toward zero) is `pyInt`.
* The target is a pair of integers, exactly as the game builds
  `complex(real_part, imag_part)` from two `randint` draws.  The stored float
  `self.target_magnitude = abs(self.target_number)` is only ever used in
  order comparisons against `abs(guess)`, and both numbers are square roots
  of integers small enough that double rounding cannot reorder them, so the
  comparison is modelled exactly by comparing squared magnitudes (`magSq`).
* Widget state is reduced to what the methods branch on: `widgetsAlive`
  records whether the round widgets (entries, labels, submit button) exist.
  `setup_game_ui` (inside `start`) creates them; they are destroyed only when
  `create_menu` runs, which `end_game` merely schedules 200 ms ahead via
  `root.after(200, self.create_menu)`.  Until that deferred callback fires,
  the widgets stay live and `check_guess` processes a submitted guess even
  though the round already ended; once they are gone, `entry_real.get()`
  raises and `check_guess` returns through the exception path.  The round
  `outcome` is a ghost tag recording which `end_game` message was shown; no
  method branches on it.
* `tk.after` handles live in `timerAfterId` / `autoAfterId`; the set of
  callbacks the toolkit still holds is `pending`.  `after_cancel` on an id
  the toolkit no longer knows is modelled as a raising call (`tkAfterCancel`
  returns `Except`), which is exactly the situation the source guards with
  `try ... except Exception: pass`.
-/

namespace ComplexGame

/-- Round outcome.  The source has no outcome field; each `end_game` call
site carries a distinct message, which this tag records. -/
inductive Outcome
  | inProgress
  | won
  | lostAttempts
  | lostTimeout
  | aborted
  deriving DecidableEq

/-- Leaderboard entry, the record built by `update_leaderboard`. -/
structure LBEntry where
  name : String
  points : ℤ
  attempts : ℕ
  time : ℤ
  mode : String
  deriving DecidableEq

/-- History entry, the record built by `save_history_entry` on a win. -/
structure HistEntry where
  result : String
  attempts : ℕ
  time : ℤ
  points : ℤ
  mode : String
  deriving DecidableEq

/-- One difficulty row of `DIFFICULTY_SETTINGS`. -/
structure Conf where
  range : ℤ
  attempts : ℕ
  timer : ℤ
  deriving DecidableEq

/-- `DIFFICULTY_SETTINGS` with the `dict.get(difficulty, DIFFICULTY_SETTINGS[1])`
fallback used by `start`. -/
def DIFFICULTY_SETTINGS (d : ℕ) : Conf :=
  match d with
  | 1 => ⟨10, 15, 120⟩
  | 2 => ⟨50, 10, 180⟩
  | 3 => ⟨100, 8, 300⟩
  | _ => ⟨10, 15, 120⟩

/-- The module constant `DEBUG`. -/
def DEBUG : Bool := false

/-- The module constant `MAX_LEADERBOARD`. -/
def MAX_LEADERBOARD : ℕ := 10

/-- Python `int(x)`: truncation toward zero. -/
def pyInt (q : ℚ) : ℤ := if 0 ≤ q then ⌊q⌋ else -⌊-q⌋

/-- Squared Euclidean magnitude of an integer complex number; the exact
model of the float `abs(complex(re, im))` under order comparisons. -/
def magSq (p : ℤ × ℤ) : ℤ := p.1 * p.1 + p.2 * p.2

/-- `is_prime` from the tkinter source: absolute value, trial division up
to `int(n ** 0.5)`. -/
def is_prime (n : ℤ) : Bool :=
  let m := n.natAbs
  if m < 2 then false
  else (List.range' 2 (Nat.sqrt m - 1)).all fun i => m % i != 0

/-- The whole mutable state of a `GuessingGame` round that the verified
methods read or write. -/
structure GameState where
  maxRange : ℤ
  maxAttempts : ℕ
  timer : ℤ
  mode : String
  targetNumber : ℤ × ℤ
  targetMagSq : ℤ
  attempts : ℕ
  startTime : Option ℚ
  widgetsAlive : Bool
  hintUsed : Bool
  cheatEnded : Bool
  autoMode : Bool
  solverRunning : Bool
  timerAfterId : Option ℕ
  autoAfterId : Option ℕ
  solverCoords : List (ℤ × ℤ)
  guessLog : List (ℤ × ℤ)
  infoText : String
  outcome : Outcome
  leaderboard : List LBEntry
  history : List HistEntry
  pending : List ℕ
  deriving DecidableEq

/-- Model of `root.after_cancel`: cancelling an id the toolkit still holds
removes it (ids are issued uniquely, so removing every occurrence is the
removal of that one callback); cancelling anything else raises. -/
def tkAfterCancel (pending : List ℕ) (i : ℕ) : Except Unit (List ℕ) :=
  if i ∈ pending then .ok (pending.filter fun j => j != i) else .error ()

/-- `try: after_cancel(i) except Exception: pass`, applied when a handle is
present; with no handle the pending set is untouched. -/
def cancelPending (pending : List ℕ) : Option ℕ → List ℕ
  | none => pending
  | some i =>
    match tkAfterCancel pending i with
    | .ok p => p
    | .error _ => pending

/-- `GuessingGame.cancel_timer`. -/
def cancel_timer (st : GameState) : GameState :=
  { st with pending := cancelPending st.pending st.timerAfterId,
            timerAfterId := none, startTime := none }

/-- `GuessingGame.cancel_timer` with the exception behaviour explicit: the
`try`/`except` swallows any failure of `after_cancel`, so the method always
returns normally. -/
def cancelTimerE (st : GameState) : Except Unit GameState :=
  match st.timerAfterId with
  | none => .ok { st with startTime := none }
  | some i =>
    match tkAfterCancel st.pending i with
    | .ok p => .ok { st with pending := p, timerAfterId := none, startTime := none }
    | .error _ => .ok { st with timerAfterId := none, startTime := none }

/-- `GuessingGame.stop_all_auto_tasks`. -/
def stop_all_auto_tasks (st : GameState) : GameState :=
  let st1 := cancel_timer st
  { st1 with pending := cancelPending st1.pending st1.autoAfterId,
             autoAfterId := none, solverRunning := false, autoMode := false }

/-- `GuessingGame.stop_all_auto_tasks` with the exception behaviour
explicit, as for `cancelTimerE`. -/
def stopAllE (st : GameState) : Except Unit GameState :=
  match cancelTimerE st with
  | .error e => .error e
  | .ok st1 =>
    match st1.autoAfterId with
    | none => .ok { st1 with autoAfterId := none, solverRunning := false, autoMode := false }
    | some i =>
      match tkAfterCancel st1.pending i with
      | .ok p => .ok { st1 with pending := p, autoAfterId := none,
                                solverRunning := false, autoMode := false }
      | .error _ => .ok { st1 with autoAfterId := none,
                                   solverRunning := false, autoMode := false }

/-- `GuessingGame.end_game`: cancel the timer, show the message, stop all
auto tasks.  The call site determines which terminal outcome the message
announces.  The round UI is NOT destroyed here: `end_game` only schedules
`create_menu` 200 ms ahead (`root.after(200, self.create_menu)`, handle
discarded), so the widgets stay live until that callback runs — modelled by
the separate `create_menu` transition. -/
def end_game (st : GameState) (oc : Outcome) : GameState :=
  stop_all_auto_tasks { st with outcome := oc }

/-- `GuessingGame.create_menu`, in its role as the teardown callback that
`end_game` defers: stop all auto tasks, then `clear()` destroys every round
widget (and the menu replaces them). -/
def create_menu (st : GameState) : GameState :=
  { stop_all_auto_tasks st with widgetsAlive := false }

/-- `GuessingGame.give_component_hints`: hint clauses, or `none` for the
empty string returned on an odd, unforced attempt.  The target components
are integers, so `math.trunc` on them is the identity. -/
def give_component_hints (st : GameState) (force : Bool) : Option (List String) :=
  if st.attempts % 2 ≠ 0 ∧ force = false then none
  else
    let tr := st.targetNumber.1
    let ti := st.targetNumber.2
    let hints := [if tr % 2 = 0 then "Real part is even" else "Real part is odd"]
    let hints := if is_prime ti then hints ++ ["Imaginary part is prime"] else hints
    some hints

/-- Rendering of a clause list, `"Hint: " + ", ".join(hints)`. -/
def render_hints (hints : List String) : String :=
  "Hint: " ++ String.intercalate ", " hints

/-- The inline magnitude comparison of `check_guess` (line 440). -/
def magnitude_hint (targetMagSq guessMagSq : ℤ) : String :=
  if guessMagSq < targetMagSq then "Magnitude is TOO LOW." else "Magnitude is TOO HIGH."

/-- `update_leaderboard`: append, stable sort by points descending, trim. -/
def update_leaderboard (board : List LBEntry) (e : LBEntry) : List LBEntry :=
  ((board ++ [e]).mergeSort fun a b => b.points ≤ a.points).take MAX_LEADERBOARD

/-- `GuessingGame.check_guess`.  With the round widgets destroyed,
`entry_real.get()` raises `TclError`, caught by the int-parse `try/except`:
early return with no state change (the `hasattr` guard covers the
pre-round case the same way).  While the widgets exist — including the
teardown window after `end_game` — the guess is processed in full.
`input` is the parsed entry content (`none` for non-integer text),
`nameEntered` the answer of the win dialog. -/
def check_guess (st : GameState) (input : Option (ℤ × ℤ)) (now : ℚ)
    (nameEntered : Option String) : GameState :=
  if st.widgetsAlive = false then st
  else
    match input with
    | none => st
    | some g =>
      let st1 := { st with attempts := st.attempts + 1, guessLog := st.guessLog ++ [g] }
      if g = st1.targetNumber then
        let timeTaken : ℚ := match st1.startTime with | some s => now - s | none => 0
        let points : ℤ := max 0 (1000 - (st1.attempts : ℤ) * 40 - pyInt timeTaken * 2)
        let h : HistEntry := ⟨"win", st1.attempts, pyInt timeTaken, points, st1.mode⟩
        let newBoard :=
          if DEBUG = false ∧ st1.autoMode = false ∧ st1.cheatEnded = false then
            match nameEntered with
            | some nm =>
              update_leaderboard st1.leaderboard
                ⟨nm, points, st1.attempts, pyInt timeTaken, st1.mode⟩
            | none => st1.leaderboard
          else st1.leaderboard
        end_game { st1 with leaderboard := newBoard, history := h :: st1.history } .won
      else
        let mh := magnitude_hint st1.targetMagSq (magSq g)
        let ch := give_component_hints st1 false
        let full := mh ++ (match ch with | some l => "\n" ++ render_hints l | none => "")
        let st2 := { st1 with hintUsed := st1.hintUsed || ch.isSome, infoText := full }
        if st2.maxAttempts ≤ st2.attempts then end_game st2 .lostAttempts else st2

/-- `GuessingGame.cheat_win`. -/
def cheat_win (st : GameState) : GameState :=
  end_game { st with cheatEnded := true } .aborted

/-- `GuessingGame.update_timer`, the once-per-second timer callback.
`newId` is the id `root.after(1000, ...)` hands back on reschedule.  The
`timer_label.winfo_exists()` guard is the widget-liveness test: the label
dies with the rest of the round UI in `create_menu`. -/
def update_timer (st : GameState) (now : ℚ) (newId : ℕ) : GameState :=
  match st.startTime with
  | none => st
  | some s =>
    if st.widgetsAlive = false then cancel_timer st
    else
      let elapsed := pyInt (now - s)
      let remaining := st.timer - elapsed
      if remaining ≤ 0 then end_game st .lostTimeout
      else { st with timerAfterId := some newId, pending := newId :: st.pending }

/-- `GuessingGame.show_hint`, the manual hint button. -/
def show_hint (st : GameState) : GameState :=
  match give_component_hints st true with
  | some _ => { st with hintUsed := true }
  | none => st

/-- `GuessingGame.start`.  The target pair is a parameter (the two
`randint` draws); `tid` is the timer id produced by the initial
`update_timer` call. -/
def start (st : GameState) (difficulty : ℕ) (stopAuto : Bool) (customRange : Option ℤ)
    (mode : String) (target : ℤ × ℤ) (now : ℚ) (tid : ℕ) : GameState :=
  let st0 := { st with cheatEnded := false }
  let st1 := if stopAuto then stop_all_auto_tasks st0 else st0
  let conf := DIFFICULTY_SETTINGS difficulty
  let range := customRange.getD conf.range
  let st2 := { st1 with
    maxRange := range, maxAttempts := conf.attempts, timer := conf.timer,
    mode := mode, targetNumber := target, targetMagSq := magSq target,
    attempts := 0, startTime := some now, widgetsAlive := true,
    hintUsed := false, outcome := .inProgress, infoText := "", guessLog := [] }
  update_timer st2 now tid

/-- The clamp `max(-self.max_range, min(self.max_range, v))` of
`_solver_step`. -/
def clamp (m x : ℤ) : ℤ := max (-m) (min m x)

/-- Python `range(a, b)` as a list of integers. -/
def pyRangeAsc (a b : ℤ) : List ℤ :=
  (List.range (b - a).toNat).map fun i : ℕ => a + (i : ℤ)

/-- Python `range(a, b, -1)` as a list of integers. -/
def pyRangeDesc (a b : ℤ) : List ℤ :=
  (List.range (a - b).toNat).map fun i : ℕ => a - (i : ℤ)

/-- The loop body of `_generate_spiral_coords` for one ring `r ≥ 1`
(`x0 = y0 = -r`): top row, right column, bottom row, left column. -/
def spiral_ring (r : ℤ) : List (ℤ × ℤ) :=
  ((pyRangeAsc (-r) (r + 1)).map fun x => (x, -r)) ++
  ((pyRangeAsc (-r + 1) (r + 1)).map fun y => (r, y)) ++
  ((pyRangeDesc (r - 1) (-r - 1)).map fun x => (x, r)) ++
  ((pyRangeDesc (r - 1) (-r)).map fun y => (-r, y))

/-- One iteration of the `for r in range(0, radius+1)` loop. -/
def code_ring (r : ℕ) : List (ℤ × ℤ) :=
  if r = 0 then [((0 : ℤ), (0 : ℤ))] else spiral_ring (r : ℤ)

/-- The `coords` list of `_generate_spiral_coords` before filtering. -/
def spiral_raw (radius : ℕ) : List (ℤ × ℤ) :=
  (List.range (radius + 1)).flatMap code_ring

/-- The seen-set duplicate-removal loop of `_generate_spiral_coords`,
keeping first occurrences. -/
def pyDedup (seen : List (ℤ × ℤ)) : List (ℤ × ℤ) → List (ℤ × ℤ)
  | [] => []
  | c :: rest => if c ∈ seen then pyDedup seen rest else c :: pyDedup (c :: seen) rest

/-- `GuessingGame._generate_spiral_coords`. -/
def generate_spiral_coords (radius : ℕ) : List (ℤ × ℤ) :=
  let coords := spiral_raw radius
  let filtered := coords.filter fun c => c.1.natAbs ≤ radius ∧ c.2.natAbs ≤ radius
  pyDedup [] filtered

/-- `GuessingGame.run_improved_solver`.  `target`, `now`, `tid` feed the
inner `start(1, stop_auto=False)`; `aid` is the id of the scheduled first
solver step. -/
def run_improved_solver (st : GameState) (target : ℤ × ℤ) (now : ℚ)
    (tid aid : ℕ) : GameState :=
  if st.solverRunning then st
  else if 30 < st.maxRange then st
  else
    let st1 := { st with autoMode := true }
    let st2 := start st1 1 false none "standard" target now tid
    { st2 with solverRunning := true,
               solverCoords := generate_spiral_coords st2.maxRange.toNat,
               autoAfterId := some aid, pending := aid :: st2.pending }

/-- `GuessingGame._solver_step`.  Besides the successor state it returns
the coordinate pair the step typed into the entry fields and submitted,
`none` when no guess was made. -/
def solver_step (st : GameState) (now : ℚ) (newId : ℕ) :
    GameState × Option (ℤ × ℤ) :=
  if st.solverRunning = false then (st, none)
  else if st.maxAttempts ≤ st.attempts then
    ({ end_game st .lostAttempts with solverRunning := false }, none)
  else if st.widgetsAlive = false then ({ st with solverRunning := false }, none)
  else
    match st.solverCoords with
    | [] => ({ end_game st .lostAttempts with solverRunning := false }, none)
    | c :: rest =>
      let rx := clamp st.maxRange c.1
      let ry := clamp st.maxRange c.2
      let st1 := { st with solverCoords := rest }
      let st2 := check_guess st1 (some (rx, ry)) now none
      if st2.solverRunning = false then (st2, some (rx, ry))
      else ({ st2 with autoAfterId := some newId, pending := newId :: st2.pending },
            some (rx, ry))

/-- One transition of the round: any of the callbacks and button handlers
the event loop can fire.  The `menu` transition is the deferred
`create_menu` callback of `end_game`; within a round it only ever fires
after the round has ended, which the constructor records. -/
inductive Step : GameState → GameState → Prop
  | guess (st : GameState) (input : Option (ℤ × ℤ)) (now : ℚ) (nm : Option String) :
      Step st (check_guess st input now nm)
  | tick (st : GameState) (now : ℚ) (tid : ℕ) : Step st (update_timer st now tid)
  | solve (st : GameState) (now : ℚ) (aid : ℕ) : Step st (solver_step st now aid).1
  | cheat (st : GameState) : Step st (cheat_win st)
  | giveUp (st : GameState) : Step st (end_game st .aborted)
  | hintBtn (st : GameState) : Step st (show_hint st)
  | stopAll (st : GameState) : Step st (stop_all_auto_tasks st)
  | runSolver (st : GameState) (target : ℤ × ℤ) (now : ℚ) (tid aid : ℕ) :
      Step st (run_improved_solver st target now tid aid)
  | menu (st : GameState) (h : st.outcome ≠ .inProgress) : Step st (create_menu st)

/-- States reachable from a given state by event-loop transitions. -/
def Reachable (init st : GameState) : Prop := Relation.ReflTransGen Step init st

/-- Round invariant: while the round is in progress the attempt counter is
strictly below the profile bound, and a finished round has a dead timer.
The bound cannot be unconditional: during the teardown window after
`end_game` the still-live widgets accept further guesses and the counter
keeps climbing (see the claim C3 counterexample). -/
def Inv (st : GameState) : Prop :=
  (st.outcome = .inProgress → st.attempts < st.maxAttempts) ∧
  (st.outcome ≠ .inProgress → st.startTime = none)

/-- Ring of the square spiral as the specification words it: ring 0 is the
origin; ring `r ≥ 1` is the border of the square traversed top row
left to right, right column top to bottom, bottom row right to left, left
column bottom to top, each point once. -/
def spec_ring (r : ℕ) : List (ℤ × ℤ) :=
  if r = 0 then [(0, 0)]
  else
    let n : ℤ := r
    ((List.range (2 * r + 1)).map fun i : ℕ => (-n + (i : ℤ), -n)) ++
    ((List.range (2 * r)).map fun i : ℕ => (n, -n + 1 + (i : ℤ))) ++
    ((List.range (2 * r)).map fun i : ℕ => (n - 1 - (i : ℤ), n)) ++
    ((List.range (2 * r - 1)).map fun i : ℕ => (-n, n - 1 - (i : ℤ)))

/-- Concrete base state used to instantiate the theorems: a fresh standard
round with target `3 + 4i` on the easy profile. -/
def init0 : GameState where
  maxRange := 10
  maxAttempts := 15
  timer := 120
  mode := "standard"
  targetNumber := (3, 4)
  targetMagSq := 25
  attempts := 0
  startTime := some 0
  widgetsAlive := true
  hintUsed := false
  cheatEnded := false
  autoMode := false
  solverRunning := false
  timerAfterId := none
  autoAfterId := none
  solverCoords := []
  guessLog := []
  infoText := ""
  outcome := .inProgress
  leaderboard := []
  history := []
  pending := []

/-- Snapshot of `start init0 3 true none "standard" (3, 4) 0 5`: the hard
profile (range 100, 8 attempts, 300 s), timer just scheduled.  Proved equal
to that `start` call below; the counterexamples evaluate on this literal
because the kernel does not reduce rational arithmetic. -/
def started3 : GameState where
  maxRange := 100
  maxAttempts := 8
  timer := 300
  mode := "standard"
  targetNumber := (3, 4)
  targetMagSq := 25
  attempts := 0
  startTime := some 0
  widgetsAlive := true
  hintUsed := false
  cheatEnded := false
  autoMode := false
  solverRunning := false
  timerAfterId := some 5
  autoAfterId := none
  solverCoords := []
  guessLog := []
  infoText := ""
  outcome := .inProgress
  leaderboard := []
  history := []
  pending := [5]

end ComplexGame

namespace ConsoleGame

/-- State of one `main()` round of `app.py` that the timeout check reads:
the attempt counter and the accumulated `time_penalty`. -/
structure AppState where
  attempts : ℕ
  timePenalty : ℤ
  startTime : ℚ
  timer : ℤ
  deriving DecidableEq

/-- The elapsed time `app.py` computes at the top of its loop:
`time.time() - start_time + time_penalty`. -/
def app_elapsed (st : AppState) (now : ℚ) : ℚ :=
  now - st.startTime + (st.timePenalty : ℚ)

/-- The loop-head timeout test `elapsed_time > timer` of `app.py`. -/
def app_timed_out (st : AppState) (now : ℚ) : Prop :=
  (st.timer : ℚ) < app_elapsed st now

instance (st : AppState) (now : ℚ) : Decidable (app_timed_out st now) := by
  unfold app_timed_out; infer_instance

/-- Bookkeeping `app.py` performs for each valid guess:
`attempts += 1; time_penalty += 10`. -/
def app_record_guess (st : AppState) : AppState :=
  { st with attempts := st.attempts + 1, timePenalty := st.timePenalty + 10 }

end ConsoleGame

namespace ComplexGame

theorem cancel_timer_def (st : GameState) :
    cancel_timer st =
      { st with pending := cancelPending st.pending st.timerAfterId,
                timerAfterId := none, startTime := none } := rfl

theorem stop_all_def (st : GameState) :
    stop_all_auto_tasks st =
      { st with pending := cancelPending (cancelPending st.pending st.timerAfterId)
                  st.autoAfterId,
                timerAfterId := none, startTime := none, autoAfterId := none,
                solverRunning := false, autoMode := false } := rfl

theorem end_game_def (st : GameState) (oc : Outcome) :
    end_game st oc =
      { st with pending := cancelPending (cancelPending st.pending st.timerAfterId)
                  st.autoAfterId,
                timerAfterId := none, startTime := none, autoAfterId := none,
                solverRunning := false, autoMode := false, outcome := oc } := rfl

theorem pyInt_eq_floor {q : ℚ} (h : 0 ≤ q) : pyInt q = ⌊q⌋ := if_pos h

theorem inv_end_game (st : GameState) (oc : Outcome) (hoc : oc ≠ .inProgress) :
    Inv (end_game st oc) :=
  ⟨fun hip => absurd hip hoc, fun _ => rfl⟩

theorem inv_check_guess {st : GameState} (h : Inv st)
    (input : Option (ℤ × ℤ)) (now : ℚ) (nm : Option String) :
    Inv (check_guess st input now nm) := by
  obtain ⟨h1, h2⟩ := h
  rw [check_guess.eq_def]
  split
  · exact ⟨h1, h2⟩
  · cases input with
    | none => exact ⟨h1, h2⟩
    | some g =>
      dsimp only
      split
      · exact inv_end_game _ _ (by simp)
      · split
        · exact inv_end_game _ _ (by simp)
        · rename_i hno
          exact ⟨fun _ => Nat.lt_of_not_le hno, h2⟩

theorem inv_update_timer {st : GameState} (h : Inv st) (now : ℚ) (tid : ℕ) :
    Inv (update_timer st now tid) := by
  obtain ⟨h1, h2⟩ := h
  rw [update_timer.eq_def]
  cases hstart : st.startTime with
  | none => exact ⟨h1, h2⟩
  | some s =>
    dsimp only
    split
    · exact ⟨h1, fun _ => rfl⟩
    · split
      · exact inv_end_game _ _ (by simp)
      · refine ⟨h1, fun hterm => ?_⟩
        have hnone := h2 hterm
        rw [hstart] at hnone
        exact Option.noConfusion hnone

theorem inv_stop_all {st : GameState} (h : Inv st) : Inv (stop_all_auto_tasks st) :=
  ⟨h.1, fun _ => rfl⟩

theorem inv_create_menu {st : GameState} (h : Inv st) : Inv (create_menu st) :=
  ⟨h.1, fun _ => rfl⟩

theorem inv_cheat_win (st : GameState) : Inv (cheat_win st) :=
  inv_end_game _ _ (by simp)

theorem inv_show_hint {st : GameState} (h : Inv st) : Inv (show_hint st) := by
  unfold show_hint
  split
  · exact ⟨h.1, h.2⟩
  · exact ⟨h.1, h.2⟩

theorem DIFFICULTY_SETTINGS_attempts_pos (d : ℕ) :
    0 < (DIFFICULTY_SETTINGS d).attempts := by
  unfold DIFFICULTY_SETTINGS
  split <;> decide

theorem inv_start (st : GameState) (d : ℕ) (sa : Bool) (cr : Option ℤ)
    (mode : String) (tgt : ℤ × ℤ) (now : ℚ) (tid : ℕ) :
    Inv (start st d sa cr mode tgt now tid) := by
  unfold start
  apply inv_update_timer
  exact ⟨fun _ => DIFFICULTY_SETTINGS_attempts_pos d, fun hc => (hc rfl).elim⟩

theorem inv_solver_step {st : GameState} (h : Inv st) (now : ℚ) (aid : ℕ) :
    Inv (solver_step st now aid).1 := by
  obtain ⟨h1, h2⟩ := h
  rw [solver_step.eq_def]
  split
  · exact ⟨h1, h2⟩
  · split
    · exact ⟨fun hip => Outcome.noConfusion hip, fun _ => rfl⟩
    · split
      · exact ⟨h1, h2⟩
      · split
        · exact ⟨fun hip => Outcome.noConfusion hip, fun _ => rfl⟩
        · rename_i c rest hcoords
          dsimp only
          obtain ⟨g1, g2⟩ :=
            @inv_check_guess { st with solverCoords := rest } ⟨h1, h2⟩
              (some (clamp st.maxRange c.1, clamp st.maxRange c.2)) now none
          split
          · exact ⟨g1, g2⟩
          · exact ⟨g1, g2⟩

theorem inv_run_improved_solver {st : GameState} (h : Inv st) (tgt : ℤ × ℤ)
    (now : ℚ) (tid aid : ℕ) : Inv (run_improved_solver st tgt now tid aid) := by
  rw [run_improved_solver.eq_def]
  split
  · exact h
  · split
    · exact h
    · dsimp only
      obtain ⟨g1, g2⟩ := inv_start { st with autoMode := true } 1 false none
        "standard" tgt now tid
      exact ⟨g1, g2⟩

theorem inv_step {st st2 : GameState} (h : Inv st) (hs : Step st st2) : Inv st2 := by
  cases hs with
  | guess input now nm => exact inv_check_guess h input now nm
  | tick now tid => exact inv_update_timer h now tid
  | solve now aid => exact inv_solver_step h now aid
  | cheat => exact inv_cheat_win st
  | giveUp => exact inv_end_game _ _ (by simp)
  | hintBtn => exact inv_show_hint h
  | stopAll => exact inv_stop_all h
  | runSolver target now tid aid => exact inv_run_improved_solver h target now tid aid
  | menu hterm => exact inv_create_menu h

theorem reachable_inv {init st : GameState} (h0 : Inv init) (h : Reachable init st) :
    Inv st := by
  induction h with
  | refl => exact h0
  | tail _ hstep ih => exact inv_step ih hstep

end ComplexGame

namespace ComplexGame

/-- Evaluation of `start` on the hard profile at instant 0 with timer
handle 5: the snapshot `started3`.  Needed because the kernel cannot
reduce the rational subtraction inside the initial `update_timer` call. -/
theorem start_eval : start init0 3 true none "standard" (3, 4) 0 5 = started3 := by
  have h0 : pyInt ((0 : ℚ) - 0) = 0 := by
    rw [pyInt_eq_floor (by norm_num)]
    norm_num
  have h1 : start init0 3 true none "standard" (3, 4) 0 5 =
      update_timer { started3 with timerAfterId := none, pending := [] } 0 5 := rfl
  rw [h1, update_timer.eq_def]
  rw [show started3.startTime = some (0 : ℚ) from rfl]
  dsimp only
  rw [if_neg (by decide)]
  rw [h0]
  rw [if_neg (by decide)]
  rfl

/-- Claim C3, corrected: in every reachable state whose outcome is still
InProgress, the attempt counter is strictly below the profile maximum (so
in particular at most it); the unconditional bound of the original claim
fails during the teardown window (see the counterexample). -/
theorem claim_C3_attempts_le_max (st0 : GameState) (d : ℕ) (sa : Bool)
    (cr : Option ℤ) (mode : String) (tgt : ℤ × ℤ) (now : ℚ) (tid : ℕ)
    (st : GameState) (h : Reachable (start st0 d sa cr mode tgt now tid) st)
    (hip : st.outcome = .inProgress) :
    st.attempts ≤ st.maxAttempts :=
  Nat.le_of_lt ((reachable_inv (inv_start st0 d sa cr mode tgt now tid) h).1 hip)

/-- Concrete instance of the corrected claim C3 at a freshly started hard
round. -/
theorem claim_C3_witness :
    Reachable (start init0 3 true none "standard" (3, 4) 0 5)
      (start init0 3 true none "standard" (3, 4) 0 5) ∧
    (start init0 3 true none "standard" (3, 4) 0 5).outcome = .inProgress ∧
    (start init0 3 true none "standard" (3, 4) 0 5).attempts ≤
      (start init0 3 true none "standard" (3, 4) 0 5).maxAttempts := by
  have hip : (start init0 3 true none "standard" (3, 4) 0 5).outcome =
      Outcome.inProgress := by
    rw [start_eval]
    rfl
  exact ⟨Relation.ReflTransGen.refl, hip,
    claim_C3_attempts_le_max init0 3 true none "standard" (3, 4) 0 5 _
      Relation.ReflTransGen.refl hip⟩

/-- Counterexample to claim C3 as stated: on the hard profile
(maxAttempts = 8), eight wrong guesses end the round with LostAttempts,
but the round widgets survive until the deferred `create_menu` runs, so a
ninth submission through the still-live entries drives the attempt counter
to 9 > 8. -/
theorem claim_C3_counterexample :
    Reachable (start init0 3 true none "standard" (3, 4) 0 5)
      (check_guess (check_guess (check_guess (check_guess (check_guess
        (check_guess (check_guess (check_guess (check_guess
          (start init0 3 true none "standard" (3, 4) 0 5)
          (some (1, 1)) 1 none) (some (1, 1)) 1 none) (some (1, 1)) 1 none)
          (some (1, 1)) 1 none) (some (1, 1)) 1 none) (some (1, 1)) 1 none)
          (some (1, 1)) 1 none) (some (1, 1)) 1 none) (some (1, 1)) 1 none) ∧
    (check_guess (check_guess (check_guess (check_guess (check_guess
        (check_guess (check_guess (check_guess (check_guess
          (start init0 3 true none "standard" (3, 4) 0 5)
          (some (1, 1)) 1 none) (some (1, 1)) 1 none) (some (1, 1)) 1 none)
          (some (1, 1)) 1 none) (some (1, 1)) 1 none) (some (1, 1)) 1 none)
          (some (1, 1)) 1 none) (some (1, 1)) 1 none) (some (1, 1)) 1
          none).maxAttempts <
      (check_guess (check_guess (check_guess (check_guess (check_guess
        (check_guess (check_guess (check_guess (check_guess
          (start init0 3 true none "standard" (3, 4) 0 5)
          (some (1, 1)) 1 none) (some (1, 1)) 1 none) (some (1, 1)) 1 none)
          (some (1, 1)) 1 none) (some (1, 1)) 1 none) (some (1, 1)) 1 none)
          (some (1, 1)) 1 none) (some (1, 1)) 1 none) (some (1, 1)) 1
          none).attempts := by
  constructor
  · exact ((((((((Relation.ReflTransGen.refl.tail
      (Step.guess _ (some (1, 1)) 1 none)).tail
      (Step.guess _ (some (1, 1)) 1 none)).tail
      (Step.guess _ (some (1, 1)) 1 none)).tail
      (Step.guess _ (some (1, 1)) 1 none)).tail
      (Step.guess _ (some (1, 1)) 1 none)).tail
      (Step.guess _ (some (1, 1)) 1 none)).tail
      (Step.guess _ (some (1, 1)) 1 none)).tail
      (Step.guess _ (some (1, 1)) 1 none)).tail
      (Step.guess _ (some (1, 1)) 1 none)
  · rw [start_eval]
    decide

/-- Claim C2, corrected: on a reachable terminal round, `update_timer` is
a no-op (the timer was cancelled, `start_time` is None); a guess is
rejected with no state change exactly once the round widgets are gone,
which is what the deferred `create_menu` teardown brings about.  During
the window before it fires the claim fails (see the counterexample). -/
theorem claim_C2_terminal_noop (st0 : GameState) (d : ℕ) (sa : Bool)
    (cr : Option ℤ) (mode : String) (tgt : ℤ × ℤ) (now : ℚ) (tid : ℕ)
    (st : GameState) (h : Reachable (start st0 d sa cr mode tgt now tid) st)
    (hterm : st.outcome ≠ .inProgress) :
    (∀ now2 tid2, update_timer st now2 tid2 = st) ∧
    (create_menu st).widgetsAlive = false ∧
    (∀ st2 : GameState, st2.widgetsAlive = false →
      ∀ input now2 nm, check_guess st2 input now2 nm = st2) := by
  refine ⟨?_, rfl, ?_⟩
  · intro now2 tid2
    have hstart : st.startTime = none :=
      (reachable_inv (inv_start st0 d sa cr mode tgt now tid) h).2 hterm
    rw [update_timer.eq_def, hstart]
  · intro st2 halive input now2 nm
    rw [check_guess.eq_def, if_pos halive]

/-- Concrete instance of the corrected claim C2: after the cheat ends the
round and the deferred `create_menu` has torn the widgets down, a further
tick and a further guess leave the state untouched. -/
theorem claim_C2_witness :
    (create_menu (cheat_win (start init0 1 true none "standard" (3, 4) 0 0))).outcome ≠
      Outcome.inProgress ∧
    update_timer (create_menu (cheat_win (start init0 1 true none "standard" (3, 4) 0 0))) 9 5 =
      create_menu (cheat_win (start init0 1 true none "standard" (3, 4) 0 0)) ∧
    (create_menu (cheat_win (start init0 1 true none "standard" (3, 4) 0 0))).widgetsAlive =
      false ∧
    check_guess (create_menu (cheat_win (start init0 1 true none "standard" (3, 4) 0 0)))
      (some (1, 1)) 9 none =
      create_menu (cheat_win (start init0 1 true none "standard" (3, 4) 0 0)) := by
  have hterm : (create_menu (cheat_win (start init0 1 true none "standard"
      (3, 4) 0 0))).outcome ≠ Outcome.inProgress := fun hc => Outcome.noConfusion hc
  have h := claim_C2_terminal_noop init0 1 true none "standard" (3, 4) 0 0 _
    (Relation.ReflTransGen.tail (Relation.ReflTransGen.single (Step.cheat _))
      (Step.menu _ (fun hc => Outcome.noConfusion hc))) hterm
  exact ⟨hterm, h.1 9 5, h.2.1, h.2.2 _ rfl (some (1, 1)) 9 none⟩

/-- Counterexample to claim C2 as stated: immediately after the cheat ends
the round, the entries are still live (the teardown is deferred 200 ms),
and a submitted guess is fully processed — the attempt counter moves on a
terminal round. -/
theorem claim_C2_counterexample :
    Reachable (start init0 3 true none "standard" (3, 4) 0 5)
      (cheat_win (start init0 3 true none "standard" (3, 4) 0 5)) ∧
    (cheat_win (start init0 3 true none "standard" (3, 4) 0 5)).outcome ≠
      Outcome.inProgress ∧
    (check_guess (cheat_win (start init0 3 true none "standard" (3, 4) 0 5))
        (some (1, 1)) 9 none).attempts =
      (cheat_win (start init0 3 true none "standard" (3, 4) 0 5)).attempts + 1 := by
  refine ⟨Relation.ReflTransGen.single (Step.cheat _),
    fun hc => Outcome.noConfusion hc, ?_⟩
  rw [start_eval]
  decide

end ComplexGame

namespace ComplexGame

/-- Claim C1: a guess equal to the target, submitted while the round is in
progress (operationally: while the round widgets are live, the only notion
of progress `check_guess` consults, with the timer running), wins the
round; the recorded points are
`max 0 (1000 - 40 * attemptsUsed - 2 * floor(elapsedSeconds))`, a function
of the attempt count and elapsed time only, and never negative. -/
theorem claim_C1_win_points (st : GameState) (now s : ℚ) (nm : Option String)
    (halive : st.widgetsAlive = true) (hst : st.startTime = some s)
    (hns : s ≤ now) :
    (check_guess st (some st.targetNumber) now nm).outcome = .won ∧
    (check_guess st (some st.targetNumber) now nm).history.head? =
      some ⟨"win", st.attempts + 1, ⌊now - s⌋,
        max 0 (1000 - 40 * ((st.attempts : ℤ) + 1) - 2 * ⌊now - s⌋), st.mode⟩ ∧
    0 ≤ max 0 (1000 - 40 * ((st.attempts : ℤ) + 1) - 2 * ⌊now - s⌋) := by
  have hq : (0 : ℚ) ≤ now - s := by linarith
  rw [check_guess.eq_def, if_neg (by simp [halive])]
  dsimp only
  rw [if_pos rfl]
  refine ⟨rfl, ?_, le_max_left _ _⟩
  rw [hst]
  dsimp only
  rw [pyInt_eq_floor hq]
  rw [end_game_def]
  simp only [List.head?_cons, Option.some.injEq, HistEntry.mk.injEq, true_and, and_true]
  have : ((st.attempts + 1 : ℕ) : ℤ) = (st.attempts : ℤ) + 1 := by push_cast; ring
  rw [this]
  ring_nf

/-- Concrete instance of claim C1: winning the fresh easy round on the
first attempt five seconds in scores `max 0 (1000 - 40 - 10) = 950`. -/
theorem claim_C1_witness :
    init0.widgetsAlive = true ∧ init0.startTime = some 0 ∧ ((0 : ℚ) ≤ 5) ∧
    (check_guess init0 (some init0.targetNumber) 5 none).outcome = .won ∧
    (check_guess init0 (some init0.targetNumber) 5 none).history.head? =
      some ⟨"win", 1, ⌊(5 : ℚ) - 0⌋,
        max 0 (1000 - 40 * ((0 : ℤ) + 1) - 2 * ⌊(5 : ℚ) - 0⌋), "standard"⟩ ∧
    max 0 (1000 - 40 * ((0 : ℤ) + 1) - 2 * ⌊(5 : ℚ) - 0⌋) = 950 := by
  have h := claim_C1_win_points init0 5 0 none rfl rfl (by norm_num)
  refine ⟨rfl, rfl, by norm_num, h.1, h.2.1, ?_⟩
  norm_num

end ComplexGame

namespace ComplexGame

/-- Claim C4, corrected: for a non-winning guess the magnitude hint is
TooLow exactly when `|guess| < |target|` and TooHigh otherwise; but equal
magnitudes with a non-winning guess are reachable (they fall into the
TooHigh branch), contrary to the unreachability clause of the claim. -/
theorem claim_C4_magnitude_hint (t g : ℤ × ℤ) (st : GameState)
    (input : ℤ × ℤ) (now : ℚ) (nm : Option String)
    (halive : st.widgetsAlive = true) (hne : input ≠ st.targetNumber) :
    (∃ rest, (check_guess st (some input) now nm).infoText =
      magnitude_hint st.targetMagSq (magSq input) ++ rest) ∧
    (magnitude_hint (magSq t) (magSq g) = "Magnitude is TOO LOW." ↔
      magSq g < magSq t) ∧
    (magnitude_hint (magSq t) (magSq g) = "Magnitude is TOO HIGH." ↔
      magSq t ≤ magSq g) := by
  constructor
  · rw [check_guess.eq_def, if_neg (by simp [halive])]
    dsimp only
    rw [if_neg hne]
    split <;> exact ⟨_, rfl⟩
  unfold magnitude_hint
  by_cases h : magSq g < magSq t
  · rw [if_pos h]
    constructor
    · exact ⟨fun _ => h, fun _ => rfl⟩
    · constructor
      · intro hs
        exact absurd hs (by decide)
      · intro hle
        exact absurd h (not_lt.mpr hle)
  · rw [if_neg h]
    constructor
    · constructor
      · intro hs
        exact absurd hs.symm (by decide)
      · intro hlt
        exact absurd hlt h
    · exact ⟨fun _ => not_lt.mp h, fun _ => rfl⟩

/-- Counterexample to claim C4 as stated: the guess `0 + 5i` against target
`3 + 4i` does not win, has exactly the magnitude of the target, and is
reachable in the hint path of `check_guess`, which reports TooHigh. -/
theorem claim_C4_counterexample :
    ((0 : ℤ), (5 : ℤ)) ≠ init0.targetNumber ∧
    magSq (0, 5) = magSq init0.targetNumber ∧
    magnitude_hint (magSq init0.targetNumber) (magSq (0, 5)) =
      "Magnitude is TOO HIGH." ∧
    (check_guess init0 (some (0, 5)) 0 none).outcome = Outcome.inProgress ∧
    (check_guess init0 (some (0, 5)) 0 none).attempts = 1 := by
  exact ⟨by decide, by decide, rfl, rfl, rfl⟩

/-- Claim C9: the cheat key ends the round as a non-win with the cheat flag
set, and a round flagged as cheated or running in automatic solver mode
never writes to the leaderboard. -/
theorem claim_C9_cheat_excluded (st : GameState) (input : Option (ℤ × ℤ))
    (now : ℚ) (nm : Option String)
    (h : st.cheatEnded = true ∨ st.autoMode = true) :
    (cheat_win st).outcome = Outcome.aborted ∧
    (cheat_win st).outcome ≠ Outcome.won ∧
    (cheat_win st).cheatEnded = true ∧
    (check_guess st input now nm).leaderboard = st.leaderboard := by
  refine ⟨rfl, fun hc => Outcome.noConfusion hc, rfl, ?_⟩
  rw [check_guess.eq_def]
  split
  · rfl
  · cases input with
    | none => rfl
    | some g =>
      dsimp only
      split
      · have hguard : ¬(DEBUG = false ∧ st.autoMode = false ∧ st.cheatEnded = false) := by
          rcases h with h | h <;> simp [h]
        rw [if_neg hguard]
        rfl
      · split
        · rfl
        · rfl

/-- Concrete instance of claim C9: with the cheat flag set, a winning
guess in the fresh easy round leaves the leaderboard untouched. -/
theorem claim_C9_witness :
    ({ init0 with cheatEnded := true } : GameState).cheatEnded = true ∧
    (cheat_win { init0 with cheatEnded := true }).outcome = Outcome.aborted ∧
    (check_guess { init0 with cheatEnded := true } (some (3, 4)) 5
        (some "name")).leaderboard =
      ({ init0 with cheatEnded := true } : GameState).leaderboard := by
  have h := claim_C9_cheat_excluded { init0 with cheatEnded := true }
    (some (3, 4)) 5 (some "name") (Or.inl rfl)
  exact ⟨rfl, h.1, h.2.2.2⟩

/-- The clamp of `_solver_step` lands in `[-m, m]` for a nonnegative bound. -/
theorem clamp_mem {m : ℤ} (x : ℤ) (hm : 0 ≤ m) :
    -m ≤ clamp m x ∧ clamp m x ≤ m := by
  unfold clamp
  constructor
  · exact le_max_left _ _
  · exact max_le (by linarith) (min_le_left _ _)

/-- Claim C10: the deterministic solver refuses to start (state unchanged)
when a solver is already running or the configured range exceeds 30, and
every coordinate a solver step submits is clamped into
`[-maxRange, maxRange]` on both components. -/
theorem claim_C10_solver_safety (st : GameState) (tgt : ℤ × ℤ) (now : ℚ)
    (tid aid : ℕ) (g : ℤ × ℤ)
    (hrefuse : st.solverRunning = true ∨ 30 < st.maxRange)
    (hrange : 0 ≤ st.maxRange)
    (hsub : (solver_step st now aid).2 = some g) :
    run_improved_solver st tgt now tid aid = st ∧
    -st.maxRange ≤ g.1 ∧ g.1 ≤ st.maxRange ∧
    -st.maxRange ≤ g.2 ∧ g.2 ≤ st.maxRange := by
  constructor
  · rw [run_improved_solver.eq_def]
    rcases hrefuse with h | h
    · rw [if_pos (by simp [h])]
    · by_cases hrun : st.solverRunning
      · rw [if_pos (by simp [hrun])]
      · rw [if_neg (by simpa using hrun), if_pos h]
  · rw [solver_step.eq_def] at hsub
    split at hsub
    · exact absurd hsub (by simp)
    · split at hsub
      · exact absurd hsub (by simp)
      · split at hsub
        · exact absurd hsub (by simp)
        · split at hsub
          · exact absurd hsub (by simp)
          · rename_i c rest hcoords
            dsimp only at hsub
            have hg : g = (clamp st.maxRange c.1, clamp st.maxRange c.2) := by
              split at hsub <;> exact (Option.some.injEq _ _ ▸ hsub).symm ▸ rfl
            obtain ⟨hl1, hr1⟩ := clamp_mem c.1 hrange
            obtain ⟨hl2, hr2⟩ := clamp_mem c.2 hrange
            rw [hg]
            exact ⟨hl1, hr1, hl2, hr2⟩

end ComplexGame

namespace ComplexGame

/-- Concrete instance of claim C10: with a solver already running, a
restart attempt is a no-op, and the queued coordinate `(50, -50)` is
submitted clamped to `(10, -10)` on the easy range. -/
theorem claim_C10_witness :
    (solver_step { init0 with solverRunning := true, solverCoords := [(50, -50)] } 0 7).2 = some (10, -10) ∧
    run_improved_solver { init0 with solverRunning := true, solverCoords := [(50, -50)] } (3, 4) 0 1 7 =
      { init0 with solverRunning := true, solverCoords := [(50, -50)] } ∧
    -({ init0 with solverRunning := true, solverCoords := [(50, -50)] } : GameState).maxRange ≤ (10 : ℤ) ∧
    (10 : ℤ) ≤ ({ init0 with solverRunning := true, solverCoords := [(50, -50)] } : GameState).maxRange ∧
    -({ init0 with solverRunning := true, solverCoords := [(50, -50)] } : GameState).maxRange ≤ (-10 : ℤ) ∧
    (-10 : ℤ) ≤ ({ init0 with solverRunning := true, solverCoords := [(50, -50)] } : GameState).maxRange := by
  have h := claim_C10_solver_safety
    { init0 with solverRunning := true, solverCoords := [(50, -50)] }
    (3, 4) 0 1 7 ((10 : ℤ), (-10 : ℤ)) (Or.inl rfl) (by decide) (by decide)
  exact ⟨by decide, h.1, h.2.1, h.2.2.1, h.2.2.2.1, h.2.2.2.2⟩

end ComplexGame

namespace ComplexGame

/-- Claim C7, corrected for the GUI game: `update_timer` computes
`elapsed = int(now - startTime)` and moves an in-progress round to
LostTimeout exactly when that elapsed value reaches the time limit, and the
decision is invariant under the attempt counter.  (The console variant
`app.py` violates the guess-count independence; see the counterexample.) -/
theorem claim_C7_timeout_wall_clock (st : GameState) (now s : ℚ) (tid a : ℕ)
    (hip : st.outcome = .inProgress) (halive : st.widgetsAlive = true)
    (hst : st.startTime = some s) :
    ((update_timer st now tid).outcome = Outcome.lostTimeout ↔
      st.timer ≤ pyInt (now - s)) ∧
    (update_timer { st with attempts := a } now tid).outcome =
      (update_timer st now tid).outcome := by
  have heval : ∀ st2 : GameState, st2.outcome = .inProgress →
      st2.widgetsAlive = true → st2.startTime = some s → st2.timer = st.timer →
      (update_timer st2 now tid).outcome =
        (if st.timer - pyInt (now - s) ≤ 0 then Outcome.lostTimeout
         else Outcome.inProgress) := by
    intro st2 hip2 halive2 hst2 htm2
    rw [update_timer.eq_def, hst2]
    dsimp only
    rw [if_neg (by simp [halive2])]
    simp only [hip2]
    rw [htm2]
    split
    · rfl
    · rfl
  have hself := heval st hip halive hst rfl
  have hother := heval { st with attempts := a } hip halive hst rfl
  refine ⟨?_, by rw [hself, hother]⟩
  rw [hself]
  by_cases h : st.timer - pyInt (now - s) ≤ 0
  · rw [if_pos h]
    exact ⟨fun _ => by omega, fun _ => rfl⟩
  · rw [if_neg h]
    constructor
    · intro hc
      exact absurd hc (by decide)
    · intro hc
      exact absurd hc (by omega)

/-- Concrete instance of the corrected claim C7: on the easy profile a tick
40 seconds in leaves the round in progress, a tick 120 seconds in times it
out, with the same behaviour after changing the attempt counter. -/
theorem claim_C7_witness :
    init0.outcome = .inProgress ∧ init0.widgetsAlive = true ∧
    init0.startTime = some 0 ∧
    ((update_timer init0 40 1).outcome = Outcome.lostTimeout ↔
      init0.timer ≤ pyInt (40 - 0)) ∧
    (update_timer { init0 with attempts := 7 } 40 1).outcome =
      (update_timer init0 40 1).outcome ∧
    (update_timer init0 40 1).outcome ≠ Outcome.lostTimeout ∧
    ((update_timer init0 120 1).outcome = Outcome.lostTimeout ↔
      init0.timer ≤ pyInt (120 - 0)) ∧
    init0.timer ≤ pyInt (120 - 0) := by
  have h40 := claim_C7_timeout_wall_clock init0 40 0 1 7 rfl rfl rfl
  have h120 := claim_C7_timeout_wall_clock init0 120 0 1 7 rfl rfl rfl
  have hlt : ¬ (init0.timer ≤ pyInt (40 - 0)) := by
    rw [pyInt_eq_floor (by norm_num)]
    norm_num [init0]
  have hge : init0.timer ≤ pyInt (120 - 0) := by
    rw [pyInt_eq_floor (by norm_num)]
    norm_num [init0]
  exact ⟨rfl, rfl, rfl, h40.1, h40.2, fun hc => hlt (h40.1.mp hc), h120.1, hge⟩

/-- Counterexample to claim C7 as stated: in `app.py` every valid guess
adds a ten-second penalty to the computed elapsed time, so at the same
wall-clock instant (100 seconds into a 120-second round) the round with no
guesses is not timed out while the round with three recorded guesses is:
the timeout decision is not a function of wall-clock time alone. -/
theorem claim_C7_counterexample :
    ¬ ConsoleGame.app_timed_out ⟨0, 0, 0, 120⟩ 100 ∧
    ConsoleGame.app_timed_out
      (ConsoleGame.app_record_guess (ConsoleGame.app_record_guess
        (ConsoleGame.app_record_guess ⟨0, 0, 0, 120⟩))) 100 ∧
    (ConsoleGame.app_record_guess (ConsoleGame.app_record_guess
        (ConsoleGame.app_record_guess ⟨0, 0, 0, 120⟩))).startTime =
      (⟨0, 0, 0, 120⟩ : ConsoleGame.AppState).startTime ∧
    (ConsoleGame.app_record_guess (ConsoleGame.app_record_guess
        (ConsoleGame.app_record_guess ⟨0, 0, 0, 120⟩))).timer =
      (⟨0, 0, 0, 120⟩ : ConsoleGame.AppState).timer := by
  refine ⟨?_, ?_, rfl, rfl⟩ <;>
    norm_num [ConsoleGame.app_timed_out, ConsoleGame.app_elapsed,
      ConsoleGame.app_record_guess]

end ComplexGame

namespace ComplexGame

theorem cancelPending_not_mem {p : List ℕ} {i : ℕ} : i ∉ cancelPending p (some i) := by
  by_cases h : i ∈ p <;> simp [cancelPending, tkAfterCancel, h]

theorem cancelPending_mono {p : List ℕ} {o : Option ℕ} {j : ℕ}
    (h : j ∈ cancelPending p o) : j ∈ p := by
  cases o with
  | none => exact h
  | some i =>
    by_cases hm : i ∈ p
    · simp [cancelPending, tkAfterCancel, hm] at h
      exact h.1
    · simpa [cancelPending, tkAfterCancel, hm] using h

theorem cancelTimerE_ok (st : GameState) :
    cancelTimerE st = Except.ok (cancel_timer st) := by
  unfold cancelTimerE cancel_timer cancelPending
  cases h : st.timerAfterId with
  | none => simp [h]
  | some i =>
    cases hc : tkAfterCancel st.pending i with
    | ok p => simp [h, hc]
    | error e => simp [h, hc]

theorem stopAllE_ok (st : GameState) :
    stopAllE st = Except.ok (stop_all_auto_tasks st) := by
  unfold stopAllE stop_all_auto_tasks
  rw [cancelTimerE_ok]
  cases h : (cancel_timer st).autoAfterId with
  | none => simp [h, cancelPending]
  | some i =>
    cases hc : tkAfterCancel (cancel_timer st).pending i with
    | ok p => simp [h, hc, cancelPending]
    | error e => simp [h, hc, cancelPending]

/-- Claim C8: cancelling timer or auto-step handles never raises (the
`Except`-typed models always return `ok`), repeated cancellation is
idempotent, and after `stop_all_auto_tasks` both handles are cleared and
neither previously held callback id is still pending. -/
theorem claim_C8_cancel_safety (st : GameState) :
    cancelTimerE st = Except.ok (cancel_timer st) ∧
    stopAllE st = Except.ok (stop_all_auto_tasks st) ∧
    cancel_timer (cancel_timer st) = cancel_timer st ∧
    stop_all_auto_tasks (stop_all_auto_tasks st) = stop_all_auto_tasks st ∧
    (stop_all_auto_tasks st).timerAfterId = none ∧
    (stop_all_auto_tasks st).autoAfterId = none ∧
    (∀ i : ℕ, st.timerAfterId = some i ∨ st.autoAfterId = some i →
      i ∉ (stop_all_auto_tasks st).pending) := by
  refine ⟨cancelTimerE_ok st, stopAllE_ok st, ?_, ?_, rfl, rfl, ?_⟩
  · rw [cancel_timer_def, cancel_timer_def]
    simp [cancelPending]
  · rw [stop_all_def, stop_all_def]
    simp [cancelPending]
  · intro i h
    rw [stop_all_def]
    simp only
    rcases h with h | h <;> rw [h]
    · intro hmem
      exact cancelPending_not_mem (cancelPending_mono hmem)
    · intro hmem
      exact cancelPending_not_mem hmem

/-- Concrete instance of claim C8: cancelling a timer handle that has
already fired (id 3 held but no longer pending) and an auto handle twice
raises nothing and leaves nothing of either handle pending. -/
theorem claim_C8_witness :
    (({ init0 with timerAfterId := some 3, autoAfterId := some 4, pending := [4] } : GameState).timerAfterId = some 3 ∨
      ({ init0 with timerAfterId := some 3, autoAfterId := some 4, pending := [4] } : GameState).autoAfterId = some 3) ∧
    cancelTimerE { init0 with timerAfterId := some 3, autoAfterId := some 4, pending := [4] } =
      Except.ok (cancel_timer { init0 with timerAfterId := some 3, autoAfterId := some 4, pending := [4] }) ∧
    stop_all_auto_tasks (stop_all_auto_tasks { init0 with timerAfterId := some 3, autoAfterId := some 4, pending := [4] }) =
      stop_all_auto_tasks { init0 with timerAfterId := some 3, autoAfterId := some 4, pending := [4] } ∧
    (3 : ℕ) ∉ (stop_all_auto_tasks { init0 with timerAfterId := some 3, autoAfterId := some 4, pending := [4] }).pending ∧
    (stop_all_auto_tasks { init0 with timerAfterId := some 3, autoAfterId := some 4, pending := [4] }).pending = [] := by
  have h := claim_C8_cancel_safety
    { init0 with timerAfterId := some 3, autoAfterId := some 4, pending := [4] }
  exact ⟨Or.inl rfl, h.1, h.2.2.2.1, h.2.2.2.2.2.2 3 (Or.inl rfl), by decide⟩

end ComplexGame

namespace ComplexGame

theorem is_prime_iff (n : ℤ) : is_prime n = true ↔ Nat.Prime n.natAbs := by
  unfold is_prime
  by_cases h : n.natAbs < 2
  · rw [if_pos h]
    constructor
    · intro hc
      exact absurd hc (by decide)
    · intro hp
      exact absurd hp.two_le (by omega)
  · rw [if_neg h]
    have h2 : 2 ≤ n.natAbs := by omega
    have hsq1 : 1 ≤ Nat.sqrt n.natAbs := Nat.le_sqrt.mpr (by omega)
    rw [List.all_eq_true]
    constructor
    · intro H
      rw [Nat.prime_def_le_sqrt]
      refine ⟨h2, fun k hk2 hks hdvd => ?_⟩
      have hkmem : k ∈ List.range' 2 (Nat.sqrt n.natAbs - 1) := by
        rw [List.mem_range'_1]
        omega
      have hval := H k hkmem
      simp only [bne_iff_ne, ne_eq] at hval
      exact hval (Nat.mod_eq_zero_of_dvd hdvd)
    · intro hp k hkmem
      rw [List.mem_range'_1] at hkmem
      rw [Nat.prime_def_le_sqrt] at hp
      have hnd := hp.2 k hkmem.1 (by omega)
      simp only [bne_iff_ne, ne_eq]
      intro hmod
      exact hnd (Nat.dvd_of_mod_eq_zero hmod)

/-- Claim C5: the component hint is non-empty exactly when the attempt
count is even or the hint was forced; when present its first clause states
the parity of the (truncated) real part, and it carries the prime clause
exactly when the absolute value of the (truncated) imaginary part is a
prime number (0 and 1 are not prime). -/
theorem claim_C5_component_hints (st : GameState) (force : Bool) :
    ((give_component_hints st force).isSome ↔
      (st.attempts % 2 = 0 ∨ force = true)) ∧
    (∀ l, give_component_hints st force = some l →
      l.head? = some (if st.targetNumber.1 % 2 = 0 then "Real part is even"
        else "Real part is odd") ∧
      ("Imaginary part is prime" ∈ l ↔ Nat.Prime st.targetNumber.2.natAbs)) := by
  unfold give_component_hints
  by_cases hgate : st.attempts % 2 ≠ 0 ∧ force = false
  · rw [if_pos hgate]
    constructor
    · simp only [Option.isSome_none, Bool.false_eq_true, false_iff]
      rintro (h | h)
      · exact hgate.1 h
      · rw [hgate.2] at h
        exact Bool.noConfusion h
    · intro l hl
      exact Option.noConfusion hl
  · rw [if_neg hgate]
    dsimp only
    constructor
    · simp only [Option.isSome_some, true_iff]
      by_cases he : st.attempts % 2 = 0
      · exact Or.inl he
      · rcases Bool.eq_false_or_eq_true force with hf | hf
        · exact Or.inr hf
        · exact absurd ⟨he, hf⟩ hgate
    · intro l hl
      rw [Option.some.injEq] at hl
      subst hl
      by_cases hp : is_prime st.targetNumber.2
      · rw [if_pos hp]
        constructor
        · rfl
        · rw [← is_prime_iff]
          simp [hp]
      · rw [if_neg hp]
        constructor
        · rfl
        · rw [← is_prime_iff]
          constructor
          · intro hmem
            split at hmem <;> simp at hmem
          · intro hc
            exact absurd hc (by simpa using hp)

end ComplexGame

namespace ComplexGame

/-- Concrete instance of claim C5: with target `2 + 7i` and zero attempts,
the unforced hint appears, opens with the parity of the real part, and
carries the prime clause since 7 is prime. -/
theorem claim_C5_witness :
    give_component_hints { init0 with targetNumber := (2, 7) } false =
      some ["Real part is even", "Imaginary part is prime"] ∧
    ((give_component_hints { init0 with targetNumber := (2, 7) } false).isSome ↔
      (({ init0 with targetNumber := (2, 7) } : GameState).attempts % 2 = 0 ∨
        false = true)) ∧
    (["Real part is even", "Imaginary part is prime"] : List String).head? =
      some (if ({ init0 with targetNumber := (2, 7) } : GameState).targetNumber.1 % 2 = 0
        then "Real part is even" else "Real part is odd") ∧
    ("Imaginary part is prime" ∈
        (["Real part is even", "Imaginary part is prime"] : List String) ↔
      Nat.Prime ({ init0 with targetNumber := (2, 7) } : GameState).targetNumber.2.natAbs) := by
  have h := claim_C5_component_hints { init0 with targetNumber := (2, 7) } false
  have hp : is_prime (7 : ℤ) = true := by
    unfold is_prime
    norm_num
  have heq : give_component_hints { init0 with targetNumber := (2, 7) } false =
      some ["Real part is even", "Imaginary part is prime"] := by
    simp [give_component_hints, init0, hp]
  have h2 := h.2 _ heq
  exact ⟨heq, h.1, h2.1, h2.2⟩

end ComplexGame

namespace ComplexGame

theorem mem_pyRangeAsc {a b x : ℤ} : x ∈ pyRangeAsc a b ↔ a ≤ x ∧ x < b := by
  simp only [pyRangeAsc, List.mem_map, List.mem_range]
  constructor
  · rintro ⟨i, hi, rfl⟩
    omega
  · rintro ⟨h1, h2⟩
    exact ⟨(x - a).toNat, by omega, by omega⟩

theorem mem_pyRangeDesc {a b x : ℤ} : x ∈ pyRangeDesc a b ↔ b < x ∧ x ≤ a := by
  simp only [pyRangeDesc, List.mem_map, List.mem_range]
  constructor
  · rintro ⟨i, hi, rfl⟩
    omega
  · rintro ⟨h1, h2⟩
    exact ⟨(a - x).toNat, by omega, by omega⟩

theorem nodup_pyRangeAsc {a b : ℤ} : (pyRangeAsc a b).Nodup :=
  (List.nodup_range _).map fun i j hij => by omega

theorem nodup_pyRangeDesc {a b : ℤ} : (pyRangeDesc a b).Nodup :=
  (List.nodup_range _).map fun i j hij => by omega

theorem length_pyRangeAsc {a b : ℤ} : (pyRangeAsc a b).length = (b - a).toNat := by
  simp [pyRangeAsc]

theorem length_pyRangeDesc {a b : ℤ} : (pyRangeDesc a b).length = (a - b).toNat := by
  simp [pyRangeDesc]

theorem mem_map_pair_fst {l : List ℤ} {c : ℤ} {p : ℤ × ℤ} :
    p ∈ l.map (fun x => (x, c)) ↔ p.1 ∈ l ∧ p.2 = c := by
  cases p with
  | mk u v =>
    simp only [List.mem_map, Prod.mk.injEq]
    constructor
    · rintro ⟨x, hx, rfl, rfl⟩
      exact ⟨hx, rfl⟩
    · rintro ⟨hu, rfl⟩
      exact ⟨u, hu, rfl, rfl⟩

theorem mem_map_pair_snd {l : List ℤ} {c : ℤ} {p : ℤ × ℤ} :
    p ∈ l.map (fun y => (c, y)) ↔ p.1 = c ∧ p.2 ∈ l := by
  cases p with
  | mk u v =>
    simp only [List.mem_map, Prod.mk.injEq]
    constructor
    · rintro ⟨y, hy, rfl, rfl⟩
      exact ⟨rfl, hy⟩
    · rintro ⟨rfl, hv⟩
      exact ⟨v, hv, rfl, rfl⟩

theorem mem_spiral_ring {r : ℤ} (hr : 1 ≤ r) {p : ℤ × ℤ} :
    p ∈ spiral_ring r ↔
      (p.1.natAbs ≤ r.toNat ∧ p.2.natAbs ≤ r.toNat ∧
        (p.1.natAbs = r.toNat ∨ p.2.natAbs = r.toNat)) := by
  simp only [spiral_ring, List.mem_append, mem_map_pair_fst, mem_map_pair_snd,
    mem_pyRangeAsc, mem_pyRangeDesc]
  omega

end ComplexGame

namespace ComplexGame

theorem nodup_spiral_ring {r : ℤ} (hr : 1 ≤ r) : (spiral_ring r).Nodup := by
  have hinj1 : Function.Injective (fun x : ℤ => (x, -r)) :=
    fun x y hxy => congrArg Prod.fst hxy
  have hinj2 : Function.Injective (fun y : ℤ => (r, y)) :=
    fun x y hxy => congrArg Prod.snd hxy
  have hinj3 : Function.Injective (fun x : ℤ => (x, r)) :=
    fun x y hxy => congrArg Prod.fst hxy
  have hinj4 : Function.Injective (fun y : ℤ => (-r, y)) :=
    fun x y hxy => congrArg Prod.snd hxy
  unfold spiral_ring
  rw [List.append_assoc, List.append_assoc]
  rw [List.nodup_append]
  refine ⟨nodup_pyRangeAsc.map hinj1, ?_, ?_⟩
  · rw [List.nodup_append]
    refine ⟨nodup_pyRangeAsc.map hinj2, ?_, ?_⟩
    · rw [List.nodup_append]
      refine ⟨nodup_pyRangeDesc.map hinj3, nodup_pyRangeDesc.map hinj4, ?_⟩
      intro p h1 h2
      rw [mem_map_pair_fst, mem_pyRangeDesc] at h1
      rw [mem_map_pair_snd, mem_pyRangeDesc] at h2
      omega
    · intro p h1 h2
      rw [mem_map_pair_snd, mem_pyRangeAsc] at h1
      rw [List.mem_append, mem_map_pair_fst, mem_map_pair_snd,
        mem_pyRangeDesc, mem_pyRangeDesc] at h2
      omega
  · intro p h1 h2
    rw [mem_map_pair_fst, mem_pyRangeAsc] at h1
    rw [List.mem_append, List.mem_append, mem_map_pair_snd, mem_map_pair_fst,
      mem_map_pair_snd, mem_pyRangeAsc, mem_pyRangeDesc, mem_pyRangeDesc] at h2
    omega

theorem length_spiral_ring {r : ℤ} (hr : 1 ≤ r) :
    (spiral_ring r).length = (8 * r).toNat := by
  simp only [spiral_ring, List.length_append, List.length_map,
    length_pyRangeAsc, length_pyRangeDesc]
  omega

theorem spiral_raw_zero : spiral_raw 0 = code_ring 0 := rfl

theorem mem_code_ring {n : ℕ} {p : ℤ × ℤ} :
    p ∈ code_ring n ↔
      (p.1.natAbs ≤ n ∧ p.2.natAbs ≤ n ∧
        (p.1.natAbs = n ∨ p.2.natAbs = n)) := by
  unfold code_ring
  by_cases h : n = 0
  · subst h
    rw [if_pos rfl]
    simp only [List.mem_singleton, Prod.ext_iff]
    omega
  · rw [if_neg h]
    rw [mem_spiral_ring (by omega)]
    omega

theorem nodup_code_ring (n : ℕ) : (code_ring n).Nodup := by
  unfold code_ring
  by_cases h : n = 0
  · subst h
    rw [if_pos rfl]
    exact List.nodup_singleton _
  · rw [if_neg h]
    exact nodup_spiral_ring (by omega)

theorem length_code_ring (n : ℕ) :
    (code_ring n).length = if n = 0 then 1 else 8 * n := by
  unfold code_ring
  by_cases h : n = 0
  · subst h
    rw [if_pos rfl, if_pos rfl]
    rfl
  · rw [if_neg h, if_neg h, length_spiral_ring (by omega)]
    omega

theorem spiral_raw_succ (R : ℕ) :
    spiral_raw (R + 1) = spiral_raw R ++ code_ring (R + 1) := by
  unfold spiral_raw
  rw [List.range_succ, List.flatMap_append]
  simp

theorem mem_spiral_raw {R : ℕ} {p : ℤ × ℤ} :
    p ∈ spiral_raw R ↔ p.1.natAbs ≤ R ∧ p.2.natAbs ≤ R := by
  induction R with
  | zero =>
    rw [spiral_raw_zero, mem_code_ring]
    omega
  | succ n ih =>
    rw [spiral_raw_succ, List.mem_append, ih, mem_code_ring]
    omega

theorem nodup_spiral_raw (R : ℕ) : (spiral_raw R).Nodup := by
  induction R with
  | zero =>
    rw [spiral_raw_zero]
    exact nodup_code_ring 0
  | succ n ih =>
    rw [spiral_raw_succ, List.nodup_append]
    refine ⟨ih, nodup_code_ring (n + 1), ?_⟩
    intro p h1 h2
    rw [mem_spiral_raw] at h1
    rw [mem_code_ring] at h2
    omega

theorem length_spiral_raw (R : ℕ) : (spiral_raw R).length = (2 * R + 1) ^ 2 := by
  induction R with
  | zero =>
    rfl
  | succ n ih =>
    rw [spiral_raw_succ, List.length_append, ih, length_code_ring]
    rw [if_neg (by omega)]
    ring

end ComplexGame

namespace ComplexGame

theorem pyDedup_eq_self (l : List (ℤ × ℤ)) :
    ∀ seen : List (ℤ × ℤ), l.Nodup → (∀ x ∈ l, x ∉ seen) →
      pyDedup seen l = l := by
  induction l with
  | nil => intro seen _ _; rfl
  | cons c rest ih =>
    intro seen hnd hout
    unfold pyDedup
    rw [if_neg (hout c (List.mem_cons_self c rest))]
    rw [ih (c :: seen) (List.Nodup.of_cons hnd)]
    intro x hx
    rw [List.mem_cons]
    rintro (hxc | hxs)
    · subst hxc
      exact (List.nodup_cons.mp hnd).1 hx
    · exact hout x (List.mem_cons_of_mem c hx) hxs

theorem generate_spiral_coords_eq_raw (R : ℕ) :
    generate_spiral_coords R = spiral_raw R := by
  unfold generate_spiral_coords
  dsimp only
  have hfilter : (spiral_raw R).filter
      (fun c => c.1.natAbs ≤ R ∧ c.2.natAbs ≤ R) = spiral_raw R := by
    rw [List.filter_eq_self]
    intro p hp
    rw [mem_spiral_raw] at hp
    exact decide_eq_true hp
  rw [hfilter]
  exact pyDedup_eq_self _ [] (nodup_spiral_raw R) (by simp)

theorem map_pair_fst_pyRangeAsc (a b c : ℤ) :
    (pyRangeAsc a b).map (fun x => (x, c)) =
      (List.range (b - a).toNat).map (fun i : ℕ => (a + (i : ℤ), c)) := by
  unfold pyRangeAsc
  rw [List.map_map]
  rfl

theorem map_pair_snd_pyRangeAsc (a b c : ℤ) :
    (pyRangeAsc a b).map (fun y => (c, y)) =
      (List.range (b - a).toNat).map (fun i : ℕ => (c, a + (i : ℤ))) := by
  unfold pyRangeAsc
  rw [List.map_map]
  rfl

theorem map_pair_fst_pyRangeDesc (a b c : ℤ) :
    (pyRangeDesc a b).map (fun x => (x, c)) =
      (List.range (a - b).toNat).map (fun i : ℕ => (a - (i : ℤ), c)) := by
  unfold pyRangeDesc
  rw [List.map_map]
  rfl

theorem map_pair_snd_pyRangeDesc (a b c : ℤ) :
    (pyRangeDesc a b).map (fun y => (c, y)) =
      (List.range (a - b).toNat).map (fun i : ℕ => (c, a - (i : ℤ))) := by
  unfold pyRangeDesc
  rw [List.map_map]
  rfl

theorem spec_ring_eq_code_ring (n : ℕ) : spec_ring n = code_ring n := by
  unfold spec_ring code_ring
  by_cases h : n = 0
  · subst h
    rfl
  · rw [if_neg h, if_neg h]
    unfold spiral_ring
    rw [map_pair_fst_pyRangeAsc, map_pair_snd_pyRangeAsc,
      map_pair_fst_pyRangeDesc, map_pair_snd_pyRangeDesc]
    rw [show ((n : ℤ) + 1 - -(n : ℤ)).toNat = 2 * n + 1 by omega]
    rw [show ((n : ℤ) + 1 - (-(n : ℤ) + 1)).toNat = 2 * n by omega]
    rw [show ((n : ℤ) - 1 - (-(n : ℤ) - 1)).toNat = 2 * n by omega]
    rw [show ((n : ℤ) - 1 - -(n : ℤ)).toNat = 2 * n - 1 by omega]

end ComplexGame

namespace ComplexGame

/-- Claim C6: for every radius, the generated spiral sequence has exactly
`(2r+1)^2` offsets with no duplicates, covers precisely the lattice square
`[-r,r] × [-r,r]`, and equals the concatenation of the rings 0..r in
ascending order, each ring traversed top row left to right, right column
top to bottom, bottom row right to left, left column bottom to top
(`spec_ring`, written from the specification). -/
theorem claim_C6_spiral_coords (R : ℕ) :
    (generate_spiral_coords R).length = (2 * R + 1) ^ 2 ∧
    (generate_spiral_coords R).Nodup ∧
    (∀ p : ℤ × ℤ, p ∈ generate_spiral_coords R ↔
      p.1.natAbs ≤ R ∧ p.2.natAbs ≤ R) ∧
    generate_spiral_coords R = (List.range (R + 1)).flatMap spec_ring := by
  rw [generate_spiral_coords_eq_raw]
  refine ⟨length_spiral_raw R, nodup_spiral_raw R,
    fun p => mem_spiral_raw, ?_⟩
  unfold spiral_raw
  have hfun : spec_ring = code_ring := funext spec_ring_eq_code_ring
  rw [hfun]

end ComplexGame

namespace ComplexGame

/-- Concrete instance of the corrected claim C4: guess `0 + 5i` against
target `3 + 4i` is non-winning, shares its magnitude, and the hint path
reports TooHigh. -/
theorem claim_C4_witness :
    init0.widgetsAlive = true ∧ ((0, 5) : ℤ × ℤ) ≠ init0.targetNumber ∧
    (∃ rest, (check_guess init0 (some (0, 5)) 0 none).infoText =
      magnitude_hint init0.targetMagSq (magSq (0, 5)) ++ rest) ∧
    (magnitude_hint (magSq (3, 4)) (magSq (0, 5)) = "Magnitude is TOO HIGH." ↔
      magSq (3, 4) ≤ magSq (0, 5)) := by
  have h := claim_C4_magnitude_hint (3, 4) (0, 5) init0 (0, 5) 0 none rfl (by decide)
  exact ⟨rfl, by decide, h.1, h.2.2⟩

end ComplexGame
